import Mathlib

/-!
Verification of the agency/session cache manager of the agentic-platform
repository (`src/nalgonda/agency_manager.py`) and the agent factory it
delegates to (`AgencyManager.load_agency_from_config`), together with the
static capability registry (`nalgonda/custom_tools/__init__.py`,
`TOOL_MAPPING`).

The embedding is shallow and sequential: every public operation of
`AgencyManager` is a critical section under the manager's single
`asyncio.Lock` (`async with self.lock`), so each operation is modelled as
an atomic function on the manager state.  The scoped `async with` block
releases the lock on every exit path (normal return or exception); the
state carries a `lockHeld` flag that records whether the lock is held
after an operation returns — always `false`, by the scoping.
-/

/-- A live agent-graph instance built by the external runtime
(`agency_swarm.Agency`).  `main_thread_id` models `agency.main_thread.id`,
the thread identity the runtime currently reports; `ref` distinguishes
instances (reference identity of the Python object). -/
structure Agency where
  main_thread_id : String
  ref : Nat
  deriving DecidableEq, Repr

/-- State of `AgencyManager`: `self.cache` (a dict keyed by the derived
cache key) and the `asyncio.Lock`.  `lockHeld` is whether the lock is held
after the operation returns: every operation acquires it via a scoped
`async with`, which releases it on all exit paths. -/
structure AgencyManager where
  cache : String → Option Agency
  lockHeld : Bool

/-- `AgencyManager.get_cache_key`:
`return f"{agency_id}/{thread_id}" if thread_id else agency_id`.
Python truthiness: both `None` and the empty string are falsy. -/
def get_cache_key (agency_id : String) (thread_id : Option String) : String :=
  match thread_id with
  | some t => if t = "" then agency_id else agency_id ++ "/" ++ t
  | none => agency_id

/-- `AgencyManager.get_agency`: pure lookup under the lock. -/
def get_agency (m : AgencyManager) (agency_id : String)
    (thread_id : Option String) : Option Agency :=
  m.cache (get_cache_key agency_id thread_id)

/-- `AgencyManager.cache_agency`: insert/overwrite at the derived key,
under the lock. -/
def cache_agency (m : AgencyManager) (agency : Agency) (agency_id : String)
    (thread_id : Option String) : AgencyManager :=
  { cache := fun k =>
      if k = get_cache_key agency_id thread_id then some agency else m.cache k,
    lockHeld := false }

/-- `AgencyManager.delete_agency_from_cache`:
`self.cache.pop(key, None)` — remove if present, no-op otherwise. -/
def delete_agency_from_cache (m : AgencyManager) (agency_id : String)
    (thread_id : Option String) : AgencyManager :=
  { cache := fun k =>
      if k = get_cache_key agency_id thread_id then none else m.cache k,
    lockHeld := false }

/-- `AgencyManager.refresh_thread_id`: read the runtime's current thread
identity; if it differs from the caller's observed one, cache the instance
under the new key, evict the old key, and return the new identity;
otherwise return `None`.  Note the two cache operations are two separate
critical sections in the source (each awaits the lock on its own). -/
def refresh_thread_id (m : AgencyManager) (agency : Agency)
    (agency_id : String) (thread_id : Option String) :
    Option String × AgencyManager :=
  let new_thread_id := agency.main_thread_id
  if thread_id ≠ some new_thread_id then
    let m1 := cache_agency m agency agency_id (some new_thread_id)
    let m2 := delete_agency_from_cache m1 agency_id thread_id
    (some new_thread_id, m2)
  else
    (none, m)

/- Helper lemmas about the derived cache key. -/

/-- A slash-form key is never equal to the bare agency id (its character
list is strictly longer). -/
theorem cache_key_slash_ne_base (a t : String) :
    a ++ "/" ++ t ≠ a := by
  intro h
  have hd := congrArg String.data h
  rw [String.data_append, String.data_append] at hd
  have hl := congrArg List.length hd
  simp [List.length_append] at hl

/-- The slash form is injective in the thread identity. -/
theorem cache_key_slash_inj (a t1 t2 : String)
    (h : a ++ "/" ++ t1 = a ++ "/" ++ t2) : t1 = t2 := by
  have hd := congrArg String.data h
  rw [String.data_append, String.data_append, String.data_append,
    String.data_append] at hd
  have := List.append_cancel_left hd
  exact String.ext this

/-- Keys derived from distinct present thread identities differ
(covers the empty-string identity as well). -/
theorem cache_key_present_inj (a t1 t2 : String) (h : t1 ≠ t2) :
    get_cache_key a (some t1) ≠ get_cache_key a (some t2) := by
  unfold get_cache_key
  by_cases h1 : t1 = ""
  · by_cases h2 : t2 = ""
    · exact absurd (h1.trans h2.symm) h
    · simp only [h1, if_pos rfl, if_neg h2]
      exact fun hk => cache_key_slash_ne_base a t2 hk.symm
  · by_cases h2 : t2 = ""
    · simp only [h2, if_neg h1, if_pos rfl]
      exact cache_key_slash_ne_base a t1
    · simp only [if_neg h1, if_neg h2]
      exact fun hk => h (cache_key_slash_inj a t1 t2 hk)

/-- When the reported identity `t2` is nonempty and differs from the
observed identity `t`, the new key differs from the old key. -/
theorem cache_key_new_ne_old (a t2 : String) (t : Option String)
    (hne : t ≠ some t2) (h2 : t2 ≠ "") :
    get_cache_key a (some t2) ≠ get_cache_key a t := by
  match t with
  | none =>
    simp only [get_cache_key, if_neg h2]
    exact cache_key_slash_ne_base a t2
  | some s =>
    exact cache_key_present_inj a t2 s (fun hst => hne (by rw [hst]))

/-- Claim C4 (as stated) is refuted by the empty-string thread identity:
the source treats a falsy `thread_id` as absent, so
`get_cache_key "x" (some "")` is `"x"`, not `"x" ++ "/" ++ ""`. -/
theorem cache_key_empty_thread_cex :
    get_cache_key "x" (some "") = "x" ∧
    get_cache_key "x" (some "") ≠ "x" ++ "/" ++ "" := by
  constructor
  · rfl
  · decide

/-- Claim C4 (amended): for a present and NONEMPTY thread identity `t`,
the derived key is `a ++ "/" ++ t`; for an absent or empty identity it is
`a` alone. -/
theorem cache_key_shape (a t : String) :
    (t ≠ "" → get_cache_key a (some t) = a ++ "/" ++ t) ∧
    get_cache_key a none = a ∧
    get_cache_key a (some "") = a := by
  refine ⟨fun h => ?_, rfl, by simp [get_cache_key]⟩
  simp [get_cache_key, h]

/-- Witness for `cache_key_shape` at concrete inputs. -/
theorem cache_key_shape_witness :
    get_cache_key "x" (some "y") = "x" ++ "/" ++ "y" ∧
    get_cache_key "x" none = "x" :=
  ⟨(cache_key_shape "x" "y").1 (by decide), (cache_key_shape "x" "y").2.1⟩

/-- Claim C9: the derived key is a deterministic function of its
arguments, and distinct present thread identities derive distinct keys
for the same agency identity. -/
theorem cache_key_deterministic_injective (a : String) (t : Option String)
    (t1 t2 : String) (h : t1 ≠ t2) :
    get_cache_key a t = get_cache_key a t ∧
    get_cache_key a (some t1) ≠ get_cache_key a (some t2) :=
  ⟨rfl, cache_key_present_inj a t1 t2 h⟩

/-- Witness for `cache_key_deterministic_injective` at concrete inputs. -/
theorem cache_key_deterministic_injective_witness :
    get_cache_key "x" (some "p") = get_cache_key "x" (some "p") ∧
    get_cache_key "x" (some "p") ≠ get_cache_key "x" (some "q") :=
  cache_key_deterministic_injective "x" (some "p") "p" "q" (by decide)

/-- Claim C10: the empty-string thread identity is treated as absent by
every cache operation — the derived key, lookup, insert and evict all
coincide with the absent-identity forms. -/
theorem empty_thread_id_as_absent (m : AgencyManager) (a : String)
    (i : Agency) :
    get_cache_key a (some "") = get_cache_key a none ∧
    get_agency m a (some "") = get_agency m a none ∧
    cache_agency m i a (some "") = cache_agency m i a none ∧
    delete_agency_from_cache m a (some "") =
      delete_agency_from_cache m a none := by
  refine ⟨rfl, rfl, rfl, rfl⟩

/-- When the reported identity `t2` differs from the observed identity
`t`, and it is not the case that `t` is absent while `t2` is empty, the
new derived key differs from the old one. -/
theorem refresh_keys_ne (a t2 : String) (t : Option String)
    (hne : t ≠ some t2) (hedge : ¬(t = none ∧ t2 = "")) :
    get_cache_key a (some t2) ≠ get_cache_key a t := by
  match t with
  | none =>
    have h2 : t2 ≠ "" := fun h => hedge ⟨rfl, h⟩
    simp only [get_cache_key, if_neg h2]
    exact cache_key_slash_ne_base a t2
  | some s =>
    exact cache_key_present_inj a t2 s (fun hst => hne (by rw [hst]))

/-- Instance whose runtime thread identity is the empty string — the
runtime type permits any string, and the empty one is falsy in the
source's key derivation. -/
def i0 : Agency := { main_thread_id := "", ref := 0 }

/-- A manager caching `i0` under the bare key `"x"`. -/
def m0 : AgencyManager :=
  { cache := fun k => if k = "x" then some i0 else none, lockHeld := false }

/-- Claim C1 (as stated) is refuted when the observed identity is absent
and the runtime reports the empty string: both identities derive the same
key `"x"`, so the eviction of the old key undoes the insertion, and
`get(a, t2)` afterwards returns absent rather than the instance. -/
theorem refresh_move_empty_id_cex :
    m0.cache (get_cache_key "x" none) = some i0 ∧
    i0.main_thread_id = "" ∧
    (none : Option String) ≠ some "" ∧
    (refresh_thread_id m0 i0 "x" none).1 = some "" ∧
    get_agency (refresh_thread_id m0 i0 "x" none).2 "x" (some "") = none ∧
    get_agency (refresh_thread_id m0 i0 "x" none).2 "x" none = none := by
  refine ⟨rfl, rfl, by decide, rfl, rfl, rfl⟩

/-- Claim C1 (amended): provided it is not the case that the observed
identity is absent while the runtime reports the empty string, a changed
identity `t2 ≠ t` makes `refresh_thread_id` return `t2`, after which
`get(a, t2)` returns the instance and `get(a, t)` returns absent; an
unchanged identity returns absent. -/
theorem refresh_moves_instance (m : AgencyManager) (a : String)
    (t : Option String) (t2 : String) (i : Agency)
    (hmain : i.main_thread_id = t2)
    (hcached : m.cache (get_cache_key a t) = some i) :
    (t ≠ some t2 → ¬(t = none ∧ t2 = "") →
      (refresh_thread_id m i a t).1 = some t2 ∧
      get_agency (refresh_thread_id m i a t).2 a (some t2) = some i ∧
      get_agency (refresh_thread_id m i a t).2 a t = none) ∧
    (t = some t2 → (refresh_thread_id m i a t).1 = none) := by
  constructor
  · intro hne hedge
    have hk := refresh_keys_ne a t2 t hne hedge
    simp only [refresh_thread_id, hmain, if_pos hne]
    refine ⟨by trivial, ?_, ?_⟩
    · simp [get_agency, delete_agency_from_cache, cache_agency, if_neg hk]
    · simp [get_agency, delete_agency_from_cache]
  · intro heq
    have hcond : ¬ (t ≠ some t2) := fun hc => hc heq
    simp only [refresh_thread_id, hmain, if_neg hcond]

/-- Instance reporting thread identity `"th1"`. -/
def iw : Agency := { main_thread_id := "th1", ref := 1 }

/-- A manager caching `iw` under the bare key `"acme"`. -/
def mw : AgencyManager :=
  { cache := fun k => if k = "acme" then some iw else none, lockHeld := false }

/-- Witness for `refresh_moves_instance` at a concrete input. -/
theorem refresh_moves_instance_witness :
    (refresh_thread_id mw iw "acme" none).1 = some "th1" ∧
    get_agency (refresh_thread_id mw iw "acme" none).2 "acme" (some "th1") =
      some iw ∧
    get_agency (refresh_thread_id mw iw "acme" none).2 "acme" none = none :=
  (refresh_moves_instance mw "acme" none "th1" iw rfl rfl).1
    (by decide) (by decide)

/-- Claim C2 (as stated) is refuted at the same edge input: with observed
identity absent and reported identity the empty string, both derived keys
are `"x"` and after `refresh_thread_id` the instance is reachable under
neither. -/
theorem refresh_unreachable_cex :
    m0.cache (get_cache_key "x" none) = some i0 ∧
    (refresh_thread_id m0 i0 "x" none).2.cache (get_cache_key "x" none) =
      none ∧
    (refresh_thread_id m0 i0 "x" none).2.cache
      (get_cache_key "x" (some i0.main_thread_id)) = none := by
  refine ⟨rfl, rfl, rfl⟩

/-- Claim C2 (amended): provided it is not the case that the observed
identity is absent while the runtime reports the empty string, after
`refresh_thread_id` the instance is reachable under at least one of the
old and new derived keys. -/
theorem refresh_keeps_reachable (m : AgencyManager) (a : String)
    (t : Option String) (i : Agency)
    (hcached : m.cache (get_cache_key a t) = some i)
    (hedge : ¬(t = none ∧ i.main_thread_id = "")) :
    (refresh_thread_id m i a t).2.cache (get_cache_key a t) = some i ∨
    (refresh_thread_id m i a t).2.cache
      (get_cache_key a (some i.main_thread_id)) = some i := by
  by_cases hne : t = some i.main_thread_id
  · left
    have hcond : ¬ (t ≠ some i.main_thread_id) := fun hc => hc hne
    simp only [refresh_thread_id, if_neg hcond]
    exact hcached
  · right
    have hk := refresh_keys_ne a i.main_thread_id t hne hedge
    simp [refresh_thread_id, if_pos hne, delete_agency_from_cache,
      cache_agency, if_neg hk]

/-- Witness for `refresh_keeps_reachable` at a concrete input. -/
theorem refresh_keeps_reachable_witness :
    (refresh_thread_id mw iw "acme" none).2.cache
      (get_cache_key "acme" none) = some iw ∨
    (refresh_thread_id mw iw "acme" none).2.cache
      (get_cache_key "acme" (some iw.main_thread_id)) = some iw :=
  refresh_keeps_reachable mw "acme" none iw rfl (by decide)

/-- The tool classes named by the static capability registry
(`nalgonda/custom_tools/__init__.py`). -/
inductive Tool where
  | codeInterpreter
  | retrieval
  | buildDirectoryTree
  | generateProposal
  | printFileContents
  | saveLeadToAirtable
  | searchWeb
  | summarizeCode
  | writeAndSaveProgram
  deriving DecidableEq, Repr

/-- `TOOL_MAPPING`: the static registry mapping tool names to tool
classes, in source order. -/
def TOOL_MAPPING : List (String × Tool) :=
  [("CodeInterpreter", .codeInterpreter),
   ("Retrieval", .retrieval),
   ("BuildDirectoryTree", .buildDirectoryTree),
   ("GenerateProposal", .generateProposal),
   ("PrintFileContents", .printFileContents),
   ("SaveLeadToAirtable", .saveLeadToAirtable),
   ("SearchWeb", .searchWeb),
   ("SummarizeCode", .summarizeCode),
   ("WriteAndSaveProgram", .writeAndSaveProgram)]

/-- The registry name of each tool class (the inverse of
`TOOL_MAPPING`, which is injective). -/
def tool_name : Tool → String
  | .codeInterpreter => "CodeInterpreter"
  | .retrieval => "Retrieval"
  | .buildDirectoryTree => "BuildDirectoryTree"
  | .generateProposal => "GenerateProposal"
  | .printFileContents => "PrintFileContents"
  | .saveLeadToAirtable => "SaveLeadToAirtable"
  | .searchWeb => "SearchWeb"
  | .summarizeCode => "SummarizeCode"
  | .writeAndSaveProgram => "WriteAndSaveProgram"

/-- Python `dict` lookup for a dict built from an association list by a
comprehension: later bindings overwrite earlier ones, so lookup returns
the last binding for the key. -/
def pyDictGet {α : Type} (l : List (String × α)) (k : String) : Option α :=
  match l with
  | [] => none
  | p :: rest =>
    match pyDictGet rest k with
    | some v => some v
    | none => if p.1 = k then some p.2 else none

/-- The tool list of one agent:
`[TOOL_MAPPING[tool] for tool in agent_conf.tools if tool in TOOL_MAPPING]`
— the membership guard plus indexing is exactly a filter-map over the
registry lookup (names absent from the registry are dropped). -/
def resolve_tools (tools : List String) : List Tool :=
  tools.filterMap (fun tool => pyDictGet TOOL_MAPPING tool)

/-- Errors raised out of `AgencyManager.load_agency_from_config`.
`keyError` is Python's builtin `KeyError`, raised by `agents[role]` when a
chart role has no agent.  `configurationNotFound` — modelled from the
spec: `AgencyConfig.load` (`nalgonda/models/agency_config.py`, not in
src/) fails this way when the store has no record for the identity
(spec 4.2, 6).  `graphConstructionError` — modelled from the spec: the
external runtime's graph constructor may reject a chart (spec 7). -/
inductive AgencyError where
  | configurationNotFound
  | keyError (key : String)
  | graphConstructionError
  deriving DecidableEq, Repr

/-- One agent record of an `AgencyConfig` (the fields the factory
reads). -/
structure AgentConf where
  id : Option String
  role : String
  description : String
  instructions : String
  files_folder : Option String
  tools : List String
  deriving DecidableEq, Repr

/-- One element of `config.agency_chart`: either a bare role or a list of
roles (`isinstance(chart, list)`). -/
inductive ChartItem where
  | single (role : String)
  | group (roles : List String)
  deriving DecidableEq, Repr

/-- The durable agency configuration record (the fields the factory
reads). -/
structure AgencyConfig where
  agents : List AgentConf
  agency_chart : List ChartItem
  agency_manifesto : String
  deriving DecidableEq, Repr

/-- An `agency_swarm.Agent` handle as constructed by the factory. -/
structure Agent where
  id : Option String
  name : String
  description : String
  instructions : String
  files_folder : Option String
  tools : List Tool
  deriving DecidableEq, Repr

/-- One element of the constructed `agency_chart` value: an agent or a
list of agents. -/
inductive ChartNode where
  | single (agent : Agent)
  | group (agents : List Agent)
  deriving DecidableEq, Repr

/-- The `Agent(...)` constructor call inside the `agents` dict
comprehension (`name=f"{agent_conf.role}_{agency_id}"`). -/
def mk_agent (agency_id : String) (ac : AgentConf) : Agent :=
  { id := ac.id
    name := ac.role ++ "_" ++ agency_id
    description := ac.description
    instructions := ac.instructions
    files_folder := ac.files_folder
    tools := resolve_tools ac.tools }

/-- `[agents[role] for role in chart]`: left to right, raising `KeyError`
at the first role with no agent. -/
def lookup_roles (agents : List (String × Agent)) :
    List String → Except AgencyError (List Agent)
  | [] => .ok []
  | r :: rs =>
    match pyDictGet agents r with
    | none => .error (.keyError r)
    | some ag =>
      match lookup_roles agents rs with
      | .error e => .error e
      | .ok l => .ok (ag :: l)

/-- One element of the `agency_chart` comprehension:
`[agents[role] for role in chart] if isinstance(chart, list) else agents[chart]`. -/
def build_chart_item (agents : List (String × Agent)) :
    ChartItem → Except AgencyError ChartNode
  | .group rs =>
    match lookup_roles agents rs with
    | .error e => .error e
    | .ok l => .ok (.group l)
  | .single r =>
    match pyDictGet agents r with
    | none => .error (.keyError r)
    | some ag => .ok (.single ag)

/-- The whole `agency_chart` comprehension, left to right, first error
wins. -/
def build_chart (agents : List (String × Agent)) :
    List ChartItem → Except AgencyError (List ChartNode)
  | [] => .ok []
  | item :: rest =>
    match build_chart_item agents item with
    | .error e => .error e
    | .ok node =>
      match build_chart agents rest with
      | .error e => .error e
      | .ok nodes => .ok (node :: nodes)

/-- `AgencyManager.load_agency_from_config`: load the configuration,
build the role-keyed `agents` dict, assemble the chart, and hand it to
the external runtime's graph constructor (`Agency(...)`, a parameter
here).  The source afterwards writes runtime-assigned agent ids back into
the configuration and persists it (`update_agent_ids_in_config`,
`config.save`); no verified claim observes the store afterwards, so the
store is modelled read-only. -/
def load_agency_from_config (store : String → Option AgencyConfig)
    (build_graph : List ChartNode → String → Except AgencyError Agency)
    (agency_id : String) : Except AgencyError Agency :=
  match store agency_id with
  | none => .error .configurationNotFound
  | some config =>
    let agents := config.agents.map (fun ac => (ac.role, mk_agent agency_id ac))
    match build_chart agents config.agency_chart with
    | .error e => .error e
    | .ok agency_chart => build_graph agency_chart config.agency_manifesto

/-- `agency_id = agency_id or uuid.uuid4().hex`: Python `or` replaces a
falsy identity (`None` or the empty string) by a freshly generated one. -/
def resolve_agency_id (agency_id : Option String) (fresh_uuid : String) :
    String :=
  match agency_id with
  | some s => if s = "" then fresh_uuid else s
  | none => fresh_uuid

/-- `AgencyManager.create_agency`: under the scoped lock, run the factory
(bridged off the event loop via `asyncio.to_thread`), store the result
under the bare agency id (`self.cache[agency_id] = agency`) and return
both; on a factory error the exception propagates, nothing is inserted,
and the scoped `async with` still releases the lock. -/
def create_agency (store : String → Option AgencyConfig)
    (build_graph : List ChartNode → String → Except AgencyError Agency)
    (agency_id : Option String) (fresh_uuid : String) (m : AgencyManager) :
    Except AgencyError (Agency × String) × AgencyManager :=
  let aid := resolve_agency_id agency_id fresh_uuid
  match load_agency_from_config store build_graph aid with
  | .error e => (.error e, { m with lockHeld := false })
  | .ok agency =>
    (.ok (agency, aid),
     { cache := fun k => if k = aid then some agency else m.cache k,
       lockHeld := false })

/-- A successful dict lookup returns a binding of the list. -/
theorem pyDictGet_mem {α : Type} (l : List (String × α)) (k : String) (v : α)
    (h : pyDictGet l k = some v) : (k, v) ∈ l := by
  induction l with
  | nil => simp [pyDictGet] at h
  | cons p rest ih =>
    cases hr : pyDictGet rest k with
    | some w =>
      simp only [pyDictGet, hr] at h
      injection h with hw
      subst hw
      exact List.mem_cons_of_mem p (ih hr)
    | none =>
      simp only [pyDictGet, hr] at h
      by_cases hpk : p.1 = k
      · rw [if_pos hpk] at h
        injection h with hw
        have hp : p = (k, v) := by
          obtain ⟨p1, p2⟩ := p
          simp only at hpk hw
          rw [hpk, hw]
        rw [hp]
        exact List.mem_cons_self _ _
      · rw [if_neg hpk] at h
        simp at h

/-- A successful registry lookup returns the tool class registered under
exactly that name. -/
theorem tool_name_of_lookup (t : String) (tl : Tool)
    (h : pyDictGet TOOL_MAPPING t = some tl) : tool_name tl = t := by
  have hm := pyDictGet_mem TOOL_MAPPING t tl h
  cases tl <;> simp_all [TOOL_MAPPING, tool_name]

/-- The resolved tool list consists, in declaration order, of exactly the
declared names present in the registry. -/
theorem resolve_tools_names (l : List String) :
    (resolve_tools l).map tool_name =
      l.filter (fun t => (pyDictGet TOOL_MAPPING t).isSome) := by
  induction l with
  | nil => rfl
  | cons t rest ih =>
    simp only [resolve_tools, List.filterMap_cons, List.filter_cons] at ih ⊢
    cases h : pyDictGet TOOL_MAPPING t with
    | none => simp [h, ih]
    | some tl => simp [h, ih, tool_name_of_lookup t tl h]

/-- Claim C8: the tools attached to a built agent are exactly the
declared tool names that exist in the static registry, in declaration
order; names absent from the registry are silently dropped (the
resolution is total — it never fails the build). -/
theorem agent_tools_resolved (agency_id : String) (ac : AgentConf) :
    ((mk_agent agency_id ac).tools).map tool_name =
      ac.tools.filter (fun t => (pyDictGet TOOL_MAPPING t).isSome) :=
  resolve_tools_names ac.tools

/-- The roles one chart element references. -/
def chart_item_roles : ChartItem → List String
  | .single r => [r]
  | .group rs => rs

/-- All roles the communication chart references, in evaluation order. -/
def chart_roles : List ChartItem → List String
  | [] => []
  | item :: rest => chart_item_roles item ++ chart_roles rest

/-- A failing role-list lookup fails with a `KeyError` naming a
referenced role with no agent. -/
theorem lookup_roles_error_shape (agents : List (String × Agent))
    (rs : List String) (e : AgencyError)
    (h : lookup_roles agents rs = .error e) :
    ∃ r, e = .keyError r ∧ r ∈ rs ∧ pyDictGet agents r = none := by
  induction rs with
  | nil => simp [lookup_roles] at h
  | cons r rest ih =>
    cases hr : pyDictGet agents r with
    | none =>
      simp only [lookup_roles, hr] at h
      injection h with he
      exact ⟨r, he.symm, List.mem_cons_self _ _, hr⟩
    | some ag =>
      cases hrest : lookup_roles agents rest with
      | error e2 =>
        simp only [lookup_roles, hr, hrest] at h
        injection h with he
        subst he
        obtain ⟨r2, he2, hm2, hn2⟩ := ih hrest
        exact ⟨r2, he2, List.mem_cons_of_mem _ hm2, hn2⟩
      | ok l =>
        simp only [lookup_roles, hr, hrest] at h
        exact Except.noConfusion h

/-- A failing chart-element construction fails with a `KeyError` naming a
referenced role with no agent. -/
theorem build_chart_item_error_shape (agents : List (String × Agent))
    (item : ChartItem) (e : AgencyError)
    (h : build_chart_item agents item = .error e) :
    ∃ r, e = .keyError r ∧ r ∈ chart_item_roles item ∧
      pyDictGet agents r = none := by
  cases item with
  | single r =>
    cases hr : pyDictGet agents r with
    | none =>
      simp only [build_chart_item, hr] at h
      injection h with he
      exact ⟨r, he.symm, List.mem_singleton_self r, hr⟩
    | some ag =>
      simp only [build_chart_item, hr] at h
      exact Except.noConfusion h
  | group rs =>
    cases hrs : lookup_roles agents rs with
    | error e2 =>
      simp only [build_chart_item, hrs] at h
      injection h with he
      subst he
      exact lookup_roles_error_shape agents rs _ hrs
    | ok l =>
      simp only [build_chart_item, hrs] at h
      exact Except.noConfusion h

/-- A failing chart construction fails with a `KeyError` naming a role
referenced somewhere in the chart and having no agent. -/
theorem build_chart_error_shape (agents : List (String × Agent))
    (items : List ChartItem) (e : AgencyError)
    (h : build_chart agents items = .error e) :
    ∃ r, e = .keyError r ∧ r ∈ chart_roles items ∧
      pyDictGet agents r = none := by
  induction items with
  | nil => simp [build_chart] at h
  | cons item rest ih =>
    cases hit : build_chart_item agents item with
    | error e2 =>
      simp only [build_chart, hit] at h
      injection h with he
      subst he
      obtain ⟨r2, he2, hm2, hn2⟩ := build_chart_item_error_shape agents item _ hit
      refine ⟨r2, he2, ?_, hn2⟩
      simp only [chart_roles, List.mem_append]
      exact Or.inl hm2
    | ok node =>
      cases hrest : build_chart agents rest with
      | error e2 =>
        simp only [build_chart, hit, hrest] at h
        injection h with he
        subst he
        obtain ⟨r2, he2, hm2, hn2⟩ := ih hrest
        refine ⟨r2, he2, ?_, hn2⟩
        simp only [chart_roles, List.mem_append]
        exact Or.inr hm2
      | ok nodes =>
        simp only [build_chart, hit, hrest] at h
        exact Except.noConfusion h

/-- A role list only resolves fully when every role has an agent. -/
theorem lookup_roles_ok_resolves (agents : List (String × Agent))
    (rs : List String) (l : List Agent)
    (h : lookup_roles agents rs = .ok l) :
    ∀ r ∈ rs, (pyDictGet agents r).isSome := by
  induction rs generalizing l with
  | nil => intro r hr; simp at hr
  | cons r0 rest ih =>
    intro r hr
    cases hr0 : pyDictGet agents r0 with
    | none =>
      simp only [lookup_roles, hr0] at h
      exact Except.noConfusion h
    | some ag =>
      cases hrest : lookup_roles agents rest with
      | error e2 =>
        simp only [lookup_roles, hr0, hrest] at h
        exact Except.noConfusion h
      | ok l2 =>
        rcases List.mem_cons.mp hr with rfl | hmem
        · simp [hr0]
        · exact ih l2 hrest r hmem

/-- The chart only constructs when every referenced role has an agent. -/
theorem build_chart_ok_resolves (agents : List (String × Agent))
    (items : List ChartItem) (nodes : List ChartNode)
    (h : build_chart agents items = .ok nodes) :
    ∀ r ∈ chart_roles items, (pyDictGet agents r).isSome := by
  induction items generalizing nodes with
  | nil => intro r hr; simp [chart_roles] at hr
  | cons item rest ih =>
    intro r hr
    cases hit : build_chart_item agents item with
    | error e2 =>
      simp only [build_chart, hit] at h
      exact Except.noConfusion h
    | ok node =>
      cases hrest : build_chart agents rest with
      | error e2 =>
        simp only [build_chart, hit, hrest] at h
        exact Except.noConfusion h
      | ok nodes2 =>
        simp only [chart_roles, List.mem_append] at hr
        rcases hr with hrit | hrrest
        · cases item with
          | single r0 =>
            cases hr0 : pyDictGet agents r0 with
            | none =>
              simp only [build_chart_item, hr0] at hit
              exact Except.noConfusion hit
            | some ag =>
              simp only [chart_item_roles, List.mem_singleton] at hrit
              subst hrit
              simp [hr0]
          | group rs =>
            cases hrs : lookup_roles agents rs with
            | error e2 =>
              simp only [build_chart_item, hrs] at hit
              exact Except.noConfusion hit
            | ok l => exact lookup_roles_ok_resolves agents rs l hrs r hrit
        · exact ih nodes2 hrest r hrrest

/-- Looking up a role in the role-keyed agents dict fails exactly when
the role is not among the declared agent roles. -/
theorem agents_lookup_none_iff (agency_id : String) (l : List AgentConf)
    (r : String) :
    pyDictGet (l.map (fun ac => (ac.role, mk_agent agency_id ac))) r = none ↔
      r ∉ l.map AgentConf.role := by
  induction l with
  | nil => simp [pyDictGet]
  | cons ac rest ih =>
    simp only [List.map_cons]
    cases hr : pyDictGet (rest.map (fun ac => (ac.role, mk_agent agency_id ac))) r with
    | some v =>
      have hmem : r ∈ rest.map AgentConf.role := by
        by_contra hc
        rw [← ih] at hc
        rw [hr] at hc
        exact Option.noConfusion hc
      simp only [pyDictGet, hr]
      simp [hmem]
    | none =>
      have hnot : r ∉ rest.map AgentConf.role := ih.mp hr
      simp only [pyDictGet, hr]
      by_cases hrole : ac.role = r
      · simp [hrole, if_pos rfl]
      · simp only [if_neg hrole, List.mem_cons]
        constructor
        · intro _ hc
          rcases hc with hc | hc
          · exact hrole hc.symm
          · exact hnot hc
        · intro _
          trivial

/-- Configuration whose chart references the undeclared role `"ceo"`. -/
def cfgC : AgencyConfig :=
  { agents := [], agency_chart := [ChartItem.single "ceo"],
    agency_manifesto := "" }

/-- Store holding `cfgC` under identity `"acme"`. -/
def storeC : String → Option AgencyConfig :=
  fun k => if k = "acme" then some cfgC else none

/-- A graph constructor that rejects every chart with
`graphConstructionError` — even against it, the factory's own `KeyError`
is what the caller observes. -/
def bgC : List ChartNode → String → Except AgencyError Agency :=
  fun _ _ => Except.error AgencyError.graphConstructionError

/-- An empty manager. -/
def mC : AgencyManager := { cache := fun _ => none, lockHeld := false }

/-- Claim C3 (as stated) is refuted: with an undeclared chart role the
creation fails with Python's `KeyError` raised by the factory's own chart
assembly (`agents[chart]`), not with `GraphConstructionError` from the
runtime — the runtime's constructor is never reached (here it would have
reported `graphConstructionError` unconditionally). -/
theorem chart_missing_role_cex :
    (create_agency storeC bgC (some "acme") "u1" mC).1 =
      Except.error (AgencyError.keyError "ceo") ∧
    AgencyError.keyError "ceo" ≠ AgencyError.graphConstructionError := by
  exact ⟨rfl, by decide⟩

/-- Claim C3 (amended): for every stored configuration whose chart
references a role not declared among its agents, creation on that
identity fails with a `KeyError` naming such a role, raised by the
factory while assembling the chart and propagated to the caller. -/
theorem chart_missing_role_fails (store : String → Option AgencyConfig)
    (build_graph : List ChartNode → String → Except AgencyError Agency)
    (agency_id fresh_uuid : String) (cfg : AgencyConfig) (m : AgencyManager)
    (hid : agency_id ≠ "")
    (hstore : store agency_id = some cfg)
    (hmiss : ∃ r ∈ chart_roles cfg.agency_chart,
      r ∉ cfg.agents.map AgentConf.role) :
    ∃ r, r ∈ chart_roles cfg.agency_chart ∧
      r ∉ cfg.agents.map AgentConf.role ∧
      load_agency_from_config store build_graph agency_id =
        .error (.keyError r) ∧
      (create_agency store build_graph (some agency_id) fresh_uuid m).1 =
        .error (.keyError r) := by
  obtain ⟨r0, hm0, hn0⟩ := hmiss
  have hlook0 : pyDictGet
      (cfg.agents.map (fun ac => (ac.role, mk_agent agency_id ac))) r0 =
      none := (agents_lookup_none_iff agency_id cfg.agents r0).mpr hn0
  cases hbc : build_chart
      (cfg.agents.map (fun ac => (ac.role, mk_agent agency_id ac)))
      cfg.agency_chart with
  | ok nodes =>
    have := build_chart_ok_resolves _ _ _ hbc r0 hm0
    rw [hlook0] at this
    exact absurd this (by simp)
  | error e =>
    obtain ⟨r, he, hmem, hnone⟩ := build_chart_error_shape _ _ _ hbc
    subst he
    refine ⟨r, hmem, ?_, ?_, ?_⟩
    · exact (agents_lookup_none_iff agency_id cfg.agents r).mp hnone
    · simp only [load_agency_from_config, hstore, hbc]
    · simp only [create_agency, resolve_agency_id, if_neg hid,
        load_agency_from_config, hstore, hbc]

/-- Witness for `chart_missing_role_fails` at a concrete input. -/
theorem chart_missing_role_fails_witness :
    ∃ r, r ∈ chart_roles cfgC.agency_chart ∧
      r ∉ cfgC.agents.map AgentConf.role ∧
      load_agency_from_config storeC bgC "acme" = .error (.keyError r) ∧
      (create_agency storeC bgC (some "acme") "u1" mC).1 =
        .error (.keyError r) :=
  chart_missing_role_fails storeC bgC "acme" "u1" cfgC mC
    (by decide) rfl (by decide)

/-- Claim C5: when the factory fails, `create_agency` propagates the
error unmodified, inserts nothing into the cache, and the scoped lock is
released. -/
theorem create_failure_no_insert (store : String → Option AgencyConfig)
    (build_graph : List ChartNode → String → Except AgencyError Agency)
    (agency_id : Option String) (fresh_uuid : String) (m : AgencyManager)
    (e : AgencyError)
    (h : load_agency_from_config store build_graph
      (resolve_agency_id agency_id fresh_uuid) = .error e) :
    (create_agency store build_graph agency_id fresh_uuid m).1 =
      .error e ∧
    (create_agency store build_graph agency_id fresh_uuid m).2.cache =
      m.cache ∧
    (create_agency store build_graph agency_id fresh_uuid m).2.lockHeld =
      false := by
  simp [create_agency, h]

/-- Store with no records at all. -/
def storeE : String → Option AgencyConfig := fun _ => none

/-- Witness for `create_failure_no_insert` at a concrete input. -/
theorem create_failure_no_insert_witness :
    (create_agency storeE bgC (some "missing") "u2" mC).1 =
      Except.error AgencyError.configurationNotFound ∧
    (create_agency storeE bgC (some "missing") "u2" mC).2.cache =
      mC.cache ∧
    (create_agency storeE bgC (some "missing") "u2" mC).2.lockHeld =
      false :=
  create_failure_no_insert storeE bgC (some "missing") "u2" mC
    AgencyError.configurationNotFound rfl

/-- Claim C6: creating an agency whose identity has no stored
configuration fails with `ConfigurationNotFound`, propagated from the
factory's configuration load (the second hypothesis reflects that a
freshly generated identifier — used when the given identity is falsy —
has no configuration either). -/
theorem create_missing_config_not_found
    (store : String → Option AgencyConfig)
    (build_graph : List ChartNode → String → Except AgencyError Agency)
    (agency_id fresh_uuid : String) (m : AgencyManager)
    (h1 : store agency_id = none) (h2 : store fresh_uuid = none) :
    (create_agency store build_graph (some agency_id) fresh_uuid m).1 =
      Except.error AgencyError.configurationNotFound := by
  by_cases he : agency_id = ""
  · subst he
    have hres : resolve_agency_id (some "") fresh_uuid = fresh_uuid := rfl
    simp [create_agency, hres, load_agency_from_config, h2]
  · have hres : resolve_agency_id (some agency_id) fresh_uuid = agency_id := by
      simp [resolve_agency_id, he]
    simp [create_agency, hres, load_agency_from_config, h1]

/-- Witness for `create_missing_config_not_found` at a concrete input. -/
theorem create_missing_config_not_found_witness :
    (create_agency storeE bgC (some "missing-agency") "u3" mC).1 =
      Except.error AgencyError.configurationNotFound :=
  create_missing_config_not_found storeE bgC "missing-agency" "u3" mC
    rfl rfl

/-- The cache-mutating operations of the manager's public contract. -/
inductive CacheOp where
  | put (agency : Agency) (agency_id : String) (thread_id : Option String)
  | evict (agency_id : String) (thread_id : Option String)
  | refresh (agency : Agency) (agency_id : String) (thread_id : Option String)

/-- Run one cache-mutating operation on the manager state. -/
def applyOp (m : AgencyManager) : CacheOp → AgencyManager
  | .put i a t => cache_agency m i a t
  | .evict a t => delete_agency_from_cache m a t
  | .refresh i a t => (refresh_thread_id m i a t).2

/-- Whether an operation may write the cache entry at key `k` (for a
reconciliation, both the old and the new derived key count as written). -/
def opWritesKey (op : CacheOp) (k : String) : Bool :=
  match op with
  | .put _ a t => get_cache_key a t == k
  | .evict a t => get_cache_key a t == k
  | .refresh i a t =>
      get_cache_key a t == k || get_cache_key a (some i.main_thread_id) == k

/-- Run a sequence of cache-mutating operations. -/
def applyOps (m : AgencyManager) (ops : List CacheOp) : AgencyManager :=
  ops.foldl applyOp m

/-- An operation that does not write key `k` leaves the entry at `k`
unchanged. -/
theorem applyOp_preserves (m : AgencyManager) (op : CacheOp) (k : String)
    (h : opWritesKey op k = false) : (applyOp m op).cache k = m.cache k := by
  cases op with
  | put i a t =>
    simp only [opWritesKey, beq_eq_false_iff_ne] at h
    have hk : k ≠ get_cache_key a t := fun hk => h hk.symm
    simp [applyOp, cache_agency, hk]
  | evict a t =>
    simp only [opWritesKey, beq_eq_false_iff_ne] at h
    have hk : k ≠ get_cache_key a t := fun hk => h hk.symm
    simp [applyOp, delete_agency_from_cache, hk]
  | refresh i a t =>
    simp only [opWritesKey, Bool.or_eq_false_iff, beq_eq_false_iff_ne] at h
    obtain ⟨h1, h2⟩ := h
    have hk1 : k ≠ get_cache_key a t := fun hk => h1 hk.symm
    have hk2 : k ≠ get_cache_key a (some i.main_thread_id) :=
      fun hk => h2 hk.symm
    by_cases hc : t ≠ some i.main_thread_id
    · simp [applyOp, refresh_thread_id, hc, delete_agency_from_cache,
        cache_agency, hk1, hk2]
    · simp [applyOp, refresh_thread_id, hc]

/-- A sequence of operations none of which writes key `k` leaves the
entry at `k` unchanged. -/
theorem applyOps_preserves (m : AgencyManager) (ops : List CacheOp)
    (k : String) (h : ∀ op ∈ ops, opWritesKey op k = false) :
    (applyOps m ops).cache k = m.cache k := by
  induction ops generalizing m with
  | nil => rfl
  | cons op rest ih =>
    have hstep := applyOp_preserves m op k (h op (List.mem_cons_self _ _))
    have hrest := ih (applyOp m op)
      (fun o ho => h o (List.mem_cons_of_mem _ ho))
    simp only [applyOps, List.foldl_cons] at hrest ⊢
    exact hrest.trans hstep

/-- Claim C7: when `create_agency` succeeds with instance `i` under
identity `rid`, `get(rid, absent)` returns the very same instance, and
keeps doing so across any sequence of cache operations that does not
write the bare key `rid` (i.e. until the entry is evicted, overwritten or
reconciled away). -/
theorem create_then_get_same_instance (store : String → Option AgencyConfig)
    (build_graph : List ChartNode → String → Except AgencyError Agency)
    (agency_id : Option String) (fresh_uuid : String) (m : AgencyManager)
    (i : Agency) (rid : String)
    (h : (create_agency store build_graph agency_id fresh_uuid m).1 =
      .ok (i, rid)) :
    get_agency (create_agency store build_graph agency_id fresh_uuid m).2
      rid none = some i ∧
    ∀ ops : List CacheOp, (∀ op ∈ ops, opWritesKey op rid = false) →
      get_agency
        (applyOps (create_agency store build_graph agency_id fresh_uuid m).2
          ops) rid none = some i := by
  have hbase :
      (create_agency store build_graph agency_id fresh_uuid m).2.cache rid =
        some i := by
    revert h
    simp only [create_agency]
    cases hl : load_agency_from_config store build_graph
        (resolve_agency_id agency_id fresh_uuid) with
    | error e =>
      intro h
      exact Except.noConfusion h
    | ok ag =>
      intro h
      injection h with hpair
      injection hpair with hag hid
      subst hag
      subst hid
      simp
  constructor
  · exact hbase
  · intro ops hops
    have hpres := applyOps_preserves
      (create_agency store build_graph agency_id fresh_uuid m).2 ops rid hops
    show (applyOps _ ops).cache rid = some i
    exact hpres.trans hbase

/-- A well-formed configuration: one agent `"ceo"` (declaring one
registered and one unregistered tool name), chart `["ceo"]`. -/
def cfgW : AgencyConfig :=
  { agents := [{ id := none, role := "ceo", description := "boss",
                 instructions := "lead", files_folder := none,
                 tools := ["SearchWeb", "NoSuchTool"] }],
    agency_chart := [ChartItem.single "ceo"],
    agency_manifesto := "manifesto" }

/-- Store holding `cfgW` under identity `"acme"`. -/
def storeW : String → Option AgencyConfig :=
  fun k => if k = "acme" then some cfgW else none

/-- The instance the runtime materializes for `cfgW`. -/
def iW : Agency := { main_thread_id := "th9", ref := 7 }

/-- A graph constructor that accepts the chart and returns `iW`. -/
def bgW : List ChartNode → String → Except AgencyError Agency :=
  fun _ _ => Except.ok iW

/-- Witness for `create_then_get_same_instance` at a concrete input
(including persistence across an unrelated eviction). -/
theorem create_then_get_same_instance_witness :
    get_agency (create_agency storeW bgW (some "acme") "u4" mC).2
      "acme" none = some iW ∧
    get_agency (applyOps (create_agency storeW bgW (some "acme") "u4" mC).2
      [CacheOp.evict "other" none]) "acme" none = some iW := by
  have h := create_then_get_same_instance storeW bgW (some "acme") "u4" mC
    iW "acme" rfl
  exact ⟨h.1, h.2 [CacheOp.evict "other" none] (by decide)⟩
